import Mathlib

set_option maxHeartbeats 1000000

/-!
Verification of the dashboard control-plane repository.

Shallow embedding of the state store (`stateService.js`), the project and
tunnel lifecycle managers (`projectLifecycle.js`, `tunnelLifecycle.js`),
the log sink/reader (`logService.js`), the config validator
(`configValidator`, `validateConfig`/`validateProject`) and the HTTP
status assembly (`buildProjectStatus` in the projects router).

Modelling conventions:
* JS `null` and `undefined` field values in runtime-state records are both
  modelled as `none` (the code never distinguishes them: every test is
  truthiness, and JSON round-trips drop `undefined`).
* The OS is an explicit oracle (`Env`): which signal deliveries succeed,
  which pid a spawn would return, and the current clock.
* Filesystem state (the `state.json` file) is threaded explicitly: `Disk`
  is `none` when the file does not exist.  Operations return the disk they
  leave behind; only `saveState` (inside `setProjectState`) changes it.
* Kill and spawn syscalls are recorded in an explicit trace so that
  "performs no kill syscall" and "does not spawn" are provable.
* Log-file writes performed by the lifecycle managers (`appendLog` calls)
  are side effects on log files only, never on the state document; they are
  modelled separately in the log section and elided from lifecycle traces.
-/

namespace Dashboard

/-- Runtime state record for one project as stored in `state.json`
(`stateService.js`): process id, start timestamp, tunnel process id,
tunnel start timestamp, tunnel public URL and its discovery timestamp. -/
structure ProjectRuntimeState where
  pid : Option Int := none
  startedAt : Option Int := none
  tunnelPid : Option Int := none
  tunnelStartedAt : Option Int := none
  tunnelUrl : Option String := none
  tunnelUrlDiscoveredAt : Option Int := none
  deriving Repr, DecidableEq

/-- The persisted state document `{ projects: { <id>: <state> } }`,
with the JS object modelled as an association list keyed by project id. -/
structure StateDocument where
  projects : List (String × ProjectRuntimeState) := []
  deriving Repr, DecidableEq

/-- The empty runtime-state record `{}` (all fields absent). -/
def emptyRuntimeState : ProjectRuntimeState where

/-- The state file on disk; `none` when `state.json` does not exist. -/
abbrev Disk := Option StateDocument

/-- `loadState` (stateService.js): parse the file, or return the empty
document `{ projects: {} }` when the file is absent (ENOENT). -/
def loadState (disk : Disk) : StateDocument :=
  match disk with
  | some doc => doc
  | none => { projects := [] }

/-- JS object assignment `state.projects[projectId] = stateObject`:
replace the entry in place if the key exists, else append it. -/
def setEntry : List (String × ProjectRuntimeState) → String → ProjectRuntimeState →
    List (String × ProjectRuntimeState)
  | [], k, v => [(k, v)]
  | (k', v') :: rest, k, v =>
      if k' = k then (k, v) :: rest else (k', v') :: setEntry rest k v

/-- `getProjectState` (stateService.js): load the document, lazily insert an
empty record for an unknown id into the loaded in-memory copy, and return
that record.  `saveState` is never called here, so the disk component of the
result is the unchanged input disk. -/
def getProjectStateOp (disk : Disk) (projectId : String) :
    ProjectRuntimeState × Disk :=
  let state := loadState disk
  let projects :=
    if (state.projects.lookup projectId).isSome then state.projects
    else state.projects ++ [(projectId, emptyRuntimeState)]
  ((projects.lookup projectId).getD emptyRuntimeState, disk)

/-- The record returned by `getProjectState`. -/
def stateGetProjectState (disk : Disk) (projectId : String) : ProjectRuntimeState :=
  (getProjectStateOp disk projectId).1

/-- `setProjectState` (stateService.js): reload the document, overwrite the
project's entry wholesale, and `saveState` the whole document. -/
def setProjectState (disk : Disk) (projectId : String)
    (stateObject : ProjectRuntimeState) : Disk :=
  let state := loadState disk
  some { projects := setEntry state.projects projectId stateObject }

/-- OS oracle: `alive p` is whether `process.kill(p, 0)` succeeds,
`killGroupOk p` whether `process.kill(-p, "SIGTERM")` succeeds,
`killOneOk p` whether `process.kill(p, "SIGTERM")` succeeds,
`spawnPid` the pid the OS would assign to a newly spawned child, and
`now` the current `Date.now()` clock value. -/
structure Env where
  alive : Int → Bool
  killGroupOk : Int → Bool
  killOneOk : Int → Bool
  spawnPid : Int
  now : Int

/-- `isProcessAlive` (projectLifecycle.js and tunnelLifecycle.js): a falsy
pid (absent/null, or 0) is reported dead without any syscall; otherwise
probe with signal 0 and report whether delivery succeeded. -/
def isProcessAlive (env : Env) (pid : Option Int) : Bool :=
  match pid with
  | none => false
  | some p => if p = 0 then false else env.alive p

/-- Trace of process-management syscalls made by a lifecycle call. -/
inductive Syscall where
  | spawn (cmd : String) (pid : Int)
  | killGroup (pid : Int)
  | killOne (pid : Int)
  deriving Repr, DecidableEq

/-- A project definition from the config plus the `tunnelPort` field the
tunnel route adds before calling `startTunnel`. -/
structure Project where
  id : String := ""
  name : String := ""
  dir : String := ""
  start : String := ""
  port : Int := 0
  tunnelPort : Int := 0
  deriving Repr, DecidableEq

/-- `startProject` (projectLifecycle.js): validate the project object,
return the stored pid unchanged when it is alive (idempotent start),
otherwise spawn the start command detached and persist the new pid and
start timestamp merged over the re-read runtime state.  Returns the pid,
the disk left behind, and the syscall trace. -/
def startProject (env : Env) (disk : Disk) (project : Project) :
    Except String (Int × Disk × List Syscall) :=
  if project.id = "" ∨ project.start = "" ∨ project.dir = "" then
    .error "Invalid project object: missing id, start command, or dir"
  else
    let projectState := stateGetProjectState disk project.id
    if isProcessAlive env projectState.pid then
      .ok (projectState.pid.getD 0, disk, [])
    else
      let childPid := env.spawnPid
      let merged := { stateGetProjectState disk project.id with
                        pid := some childPid, startedAt := some env.now }
      .ok (childPid, setProjectState disk project.id merged,
           [Syscall.spawn project.start childPid])

/-- `stopProject` (projectLifecycle.js): validate the id; with no truthy
stored pid, return `false` with no syscall and no state write; otherwise
SIGTERM the process group (negated pid) first, falling back to the single
pid, then unconditionally persist the runtime state with `pid` and
`startedAt` cleared (spread of the re-read state, preserving tunnel
fields), returning whether any kill attempt succeeded. -/
def stopProject (env : Env) (disk : Disk) (project : Project) :
    Except String (Bool × Disk × List Syscall) :=
  if project.id = "" then
    .error "Invalid project object: missing id"
  else
    let projectState := stateGetProjectState disk project.id
    match projectState.pid with
    | none => .ok (false, disk, [])
    | some p =>
      if p = 0 then .ok (false, disk, [])
      else
        let killed := if env.killGroupOk p then true else env.killOneOk p
        let calls := if env.killGroupOk p then [Syscall.killGroup p]
                     else [Syscall.killGroup p, Syscall.killOne p]
        let cleared := { stateGetProjectState disk project.id with
                           pid := none, startedAt := none }
        .ok (killed, setProjectState disk project.id cleared, calls)

/-- `isProjectRunning` (projectLifecycle.js): liveness of the stored pid. -/
def isProjectRunning (env : Env) (disk : Disk) (projectId : String) :
    Except String (Bool × Disk) :=
  if projectId = "" then .error "Project ID is required"
  else .ok (isProcessAlive env (stateGetProjectState disk projectId).pid, disk)

/-- `getProjectPid` (projectLifecycle.js): the stored pid if alive, else null. -/
def getProjectPid (env : Env) (disk : Disk) (projectId : String) :
    Except String (Option Int × Disk) :=
  if projectId = "" then .error "Project ID is required"
  else
    let pid := (stateGetProjectState disk projectId).pid
    if isProcessAlive env pid then .ok (pid, disk) else .ok (none, disk)

/-- `startTunnel` (tunnelLifecycle.js): validate id and tunnelPort (both
truthiness tests), return the stored tunnel pid when alive, otherwise spawn
`cloudflared tunnel --url localhost:<port>` detached and persist the new
tunnel pid and start timestamp merged over the re-read state.  The stdout
URL scanning installed by this call is modelled by `onTunnelStdout` below. -/
def startTunnel (env : Env) (disk : Disk) (project : Project) :
    Except String (Int × Disk × List Syscall) :=
  if project.id = "" ∨ project.tunnelPort = 0 then
    .error "Invalid project object: missing id or tunnelPort"
  else
    let projectState := stateGetProjectState disk project.id
    if isProcessAlive env projectState.tunnelPid then
      .ok (projectState.tunnelPid.getD 0, disk, [])
    else
      let childPid := env.spawnPid
      let merged := { stateGetProjectState disk project.id with
                        tunnelPid := some childPid, tunnelStartedAt := some env.now }
      .ok (childPid, setProjectState disk project.id merged,
           [Syscall.spawn ("cloudflared tunnel --url localhost:" ++
                            toString project.tunnelPort) childPid])

/-- The character class `[a-zA-Z0-9-]` of the tunnel-URL pattern. -/
def urlChar (c : Char) : Bool := c.isAlpha || c.isDigit || c = '-'

/-- Literal match of `pat` at the head of `cs`. -/
def beginsWith : List Char → List Char → Bool
  | [], _ => true
  | _ :: _, [] => false
  | p :: ps, c :: cs => p = c && beginsWith ps cs

/-- Match the regex `https:\/\/([a-zA-Z0-9-]+\.trycloudflare\.com)` at the
head of `cs`, returning group 0.  Because `.` is not in the character class,
the greedy `+` always consumes exactly the maximal run of class characters,
after which the literal tail must match. -/
def matchUrlAt (cs : List Char) : Option (List Char) :=
  if beginsWith "https://".data cs then
    let rest := cs.drop 8
    let run := rest.takeWhile urlChar
    if run ≠ [] && beginsWith ".trycloudflare.com".data (rest.drop run.length) then
      some ("https://".data ++ run ++ ".trycloudflare.com".data)
    else none
  else none

/-- Leftmost match of the tunnel-URL pattern in a chunk
(JS `output.match(...)`, group 0). -/
def findUrl : List Char → Option String
  | [] => none
  | c :: cs =>
    match matchUrlAt (c :: cs) with
    | some m => some (String.mk m)
    | none => findUrl cs

/-- `output.match(/https:\/\/([a-zA-Z0-9-]+\.trycloudflare\.com)/)` on a
stdout chunk, as used inside `startTunnel`'s data handler. -/
def findUrlInChunk (s : String) : Option String := findUrl s.data

/-- State carried across stdout "data" events of one `startTunnel` session:
the `urlCaptured` flag local to the invocation, and the state file. -/
structure TunnelScan where
  urlCaptured : Bool
  disk : Disk
  deriving Repr, DecidableEq

/-- The stdout "data" handler installed by `startTunnel`
(tunnelLifecycle.js): the chunk is logged (elided here); unless a URL was
already captured in this session, the chunk is scanned, and on a match the
matched URL plus a discovery timestamp are merged into the project's
runtime state, persisted, and the captured flag is set.  An event is the
chunk text paired with `Date.now()` at delivery time. -/
def onTunnelStdout (projectId : String) (scan : TunnelScan)
    (ev : String × Int) : TunnelScan :=
  if scan.urlCaptured then scan
  else
    match findUrlInChunk ev.1 with
    | none => scan
    | some url =>
      let st := stateGetProjectState scan.disk projectId
      { urlCaptured := true,
        disk := setProjectState scan.disk projectId
          { st with tunnelUrl := some url, tunnelUrlDiscoveredAt := some ev.2 } }

/-- Fold of the stdout handler over the stream of data events observed
during one `startTunnel` session. -/
def processTunnelOutput (projectId : String) (scan : TunnelScan)
    (evs : List (String × Int)) : TunnelScan :=
  evs.foldl (onTunnelStdout projectId) scan

/-- `isTunnelRunning` (tunnelLifecycle.js): liveness of the stored tunnel pid. -/
def isTunnelRunning (env : Env) (disk : Disk) (projectId : String) :
    Except String (Bool × Disk) :=
  if projectId = "" then .error "Project ID is required"
  else .ok (isProcessAlive env (stateGetProjectState disk projectId).tunnelPid, disk)

/-- JS `x || null` on an optional string: the empty string is falsy. -/
def strOrNull (s : Option String) : Option String :=
  match s with
  | some u => if u = "" then none else some u
  | none => none

/-- `getTunnelUrl` (tunnelLifecycle.js): the stored URL (`|| null`) when the
tunnel is assessed alive via `isTunnelRunning`, otherwise null. -/
def getTunnelUrl (env : Env) (disk : Disk) (projectId : String) :
    Except String (Option String × Disk) :=
  if projectId = "" then .error "Project ID is required"
  else
    let st := stateGetProjectState disk projectId
    match isTunnelRunning env disk projectId with
    | .error e => .error e
    | .ok (running, _) =>
      if running then .ok (strOrNull st.tunnelUrl, disk) else .ok (none, disk)

/-- JS `s.endsWith(pat)`. -/
def strEndsWith (s pat : String) : Bool :=
  beginsWith pat.data.reverse s.data.reverse

/-- The line `appendLog` (logService.js) builds from a timestamp and a
message: `[<timestamp>] <message>`, with a newline appended only when the
line does not already end with one. -/
def logLine (timestamp message : String) : String :=
  let line := "[" ++ timestamp ++ "] " ++ message
  if strEndsWith line "\n" then line else line ++ "\n"

/-- `appendLog` (logService.js): all three identifiers must be truthy
(non-empty), else throw; otherwise append the formatted line to the
project's log file (`<id>.<type>.log`), whose previous content is `file`
(`none` when the file does not exist yet).  Returns the new file content.
The ISO-8601 timestamp string `new Date().toISOString()` is passed in. -/
def appendLog (file : Option String) (projectId logType message : String)
    (timestamp : String) : Except String String :=
  if projectId = "" ∨ logType = "" ∨ message = "" then
    .error "projectId, logType, and message are required"
  else
    .ok ((file.getD "") ++ logLine timestamp message)

/-- `readLog` (logService.js): both identifiers must be truthy, else throw.
A missing file (ENOENT) reads as the empty string.  Otherwise seek to
`Math.max(0, size - maxBytes)` (the clamp is Nat subtraction here) and read
to the end.  The log file is a byte sequence; the source decodes the read
bytes as UTF-8, which we leave at the byte level. -/
def readLog (file : Option (List UInt8)) (projectId logType : String)
    (maxBytes : Nat) : Except String (List UInt8) :=
  if projectId = "" ∨ logType = "" then
    .error "projectId and logType are required"
  else
    match file with
    | none => .ok []
    | some bytes =>
      let start := bytes.length - maxBytes
      .ok (bytes.drop start)

/-- The project status object assembled by the projects router. -/
structure ProjectStatus where
  id : String
  name : String
  dir : String
  start : String
  port : Int
  tunnelPort : Int
  running : Bool
  pid : Option Int
  startedAt : Option Int
  tunnelRunning : Bool
  tunnelPid : Option Int
  tunnelUrl : Option String
  tunnelStartedAt : Option Int
  deriving Repr, DecidableEq

/-- JS `x || null` on an optional number: 0 is falsy and coerced to null. -/
def numOrNull (v : Option Int) : Option Int :=
  match v with
  | some n => if n = 0 then none else some n
  | none => none

/-- `buildProjectStatus` (projects router): reads the raw runtime state via
`stateService.getProjectState` and exposes `pid`, `startedAt`, `tunnelPid`
and `tunnelStartedAt` directly from it (`|| null`), while `running`,
`tunnelRunning` and `tunnelUrl` go through the liveness-checking reads. -/
def buildProjectStatus (env : Env) (disk : Disk) (project : Project) :
    Except String (ProjectStatus × Disk) :=
  let st := stateGetProjectState disk project.id
  match isProjectRunning env disk project.id with
  | .error e => .error e
  | .ok (running, _) =>
    match isTunnelRunning env disk project.id with
    | .error e => .error e
    | .ok (tRunning, _) =>
      match getTunnelUrl env disk project.id with
      | .error e => .error e
      | .ok (tUrl, _) =>
        .ok ({ id := project.id, name := project.name, dir := project.dir,
               start := project.start, port := project.port,
               tunnelPort := project.port,
               running := running,
               pid := numOrNull st.pid,
               startedAt := numOrNull st.startedAt,
               tunnelRunning := tRunning,
               tunnelPid := numOrNull st.tunnelPid,
               tunnelUrl := tUrl,
               tunnelStartedAt := numOrNull st.tunnelStartedAt }, disk)

/-- The disk left behind by a state-reading operation: the disk in the
`ok` result, or the original disk when the call threw before any write. -/
def diskAfter {α : Type} (r : Except String (α × Disk)) (orig : Disk) : Disk :=
  match r with
  | .ok x => x.2
  | .error _ => orig

/-- A JS value as seen by the config validator (`part_008`).  Numbers are
modelled as rationals so that `Number.isInteger` is expressible
(denominator 1); the textual rendering of non-integer numbers in error
messages differs from JS float printing, which only affects the tail of
one message, never which error fires. -/
inductive JSVal where
  | undefined
  | null
  | bool (b : Bool)
  | num (q : ℚ)
  | str (s : String)
  | arr (elems : List JSVal)
  | obj (fields : List (String × JSVal))
  deriving Repr

/-- JS `typeof`. -/
def jsTypeof : JSVal → String
  | .undefined => "undefined"
  | .null => "object"
  | .bool _ => "boolean"
  | .num _ => "number"
  | .str _ => "string"
  | .arr _ => "object"
  | .obj _ => "object"

/-- JS `Array.isArray`. -/
def isJsArray : JSVal → Bool
  | .arr _ => true
  | _ => false

/-- JS property access `v[key]`: `undefined` for a missing key or a
non-object receiver (the validator only dereferences after checking). -/
def jsGet (v : JSVal) (key : String) : JSVal :=
  match v with
  | .obj fields => (fields.lookup key).getD .undefined
  | _ => .undefined

/-- Whether a value `=== undefined`. -/
def isUndefined : JSVal → Bool
  | .undefined => true
  | _ => false

/-- The condition `!project || typeof project !== "object"` is false, i.e.
the value is a truthy object (plain objects and arrays both qualify). -/
def jsObjecty : JSVal → Bool
  | .arr _ => true
  | .obj _ => true
  | _ => false

/-- The string interpolation `got <n>` for a JS number: integers print as
integers; non-integers use the rational rendering (see `JSVal`). -/
def ratToString (q : ℚ) : String :=
  if q.den = 1 then toString q.num else toString q

/-- JS whitespace for `String.prototype.trim` (the ASCII part; the
validator never sees the exotic Unicode space separators). -/
def isJsSpace (c : Char) : Bool :=
  c = ' ' || c = '\t' || c = '\n' || c = '\r' || c = '\x0b' || c = '\x0c'

/-- JS `s.trim()`: strip leading and trailing whitespace. -/
def jsTrim (s : String) : String :=
  String.mk (((s.data.dropWhile isJsSpace).reverse.dropWhile isJsSpace).reverse)

/-- The check `typeof v === "string" && v.trim() !== ""`. -/
def isNonBlankStr : JSVal → Bool
  | .str s => jsTrim s ≠ ""
  | _ => false

/-- The `requiredFields` list of `validateProject`. -/
def requiredFields : List String := ["id", "name", "dir", "start", "port"]

/-- The missing-required-field error message of `validateProject`. -/
def projectFieldMissingMsg (index : Nat) (field : String) : String :=
  "Invalid configuration: project at index " ++ toString index ++
    " missing required field: \"" ++ field ++ "\""

/-- The non-empty-string error message of `validateProject`. -/
def projectBlankFieldMsg (index : Nat) (field : String) : String :=
  "Invalid configuration: project at index " ++ toString index ++
    " \"" ++ field ++ "\" must be a non-empty string"

/-- The `for (const field of requiredFields)` loop of `validateProject`:
the first required field whose value `=== undefined`. -/
def firstMissingField (p : JSVal) : Option String :=
  requiredFields.find? (fun f => isUndefined (jsGet p f))

/-- `validateProject` (part_008): objecthood, the missing-field loop in
order id, name, dir, start, port, then the per-field type checks in the
same order, throwing the first applicable error message. -/
def validateProject (project : JSVal) (index : Nat) : Except String Unit :=
  if jsObjecty project = false then
    .error ("Invalid configuration: project at index " ++ toString index ++
             " must be a valid object")
  else
    match firstMissingField project with
    | some f => .error (projectFieldMissingMsg index f)
    | none =>
      if isNonBlankStr (jsGet project "id") = false then
        .error (projectBlankFieldMsg index "id")
      else if isNonBlankStr (jsGet project "name") = false then
        .error (projectBlankFieldMsg index "name")
      else if isNonBlankStr (jsGet project "dir") = false then
        .error (projectBlankFieldMsg index "dir")
      else if isNonBlankStr (jsGet project "start") = false then
        .error (projectBlankFieldMsg index "start")
      else
        match jsGet project "port" with
        | .num q =>
          if q.den = 1 ∧ 0 ≤ q ∧ q ≤ 65535 then .ok ()
          else
            .error ("Invalid configuration: project at index " ++ toString index ++
                     " \"port\" must be a valid port number (0-65535), got " ++
                     ratToString q)
        | v =>
          .error ("Invalid configuration: project at index " ++ toString index ++
                   " \"port\" must be a number, got " ++ jsTypeof v)

/-- The `config.projects.forEach(validateProject)` loop: validate entries
left to right, throwing the first error. -/
def validateProjectList : List JSVal → Nat → Except String Unit
  | [], _ => .ok ()
  | p :: rest, index =>
    match validateProject p index with
    | .error e => .error e
    | .ok _ => validateProjectList rest (index + 1)

/-- `validateConfig` (part_008): reject non-object documents, then check
`port` (present, a number, an integer in 0–65535), then `projects`
(an array), then validate each project entry in order. -/
def validateConfig (config : JSVal) : Except String Unit :=
  match config with
  | .obj _ =>
    match jsGet config "port" with
    | .undefined => .error "Configuration missing required field: \"port\""
    | .num q =>
      if q.den = 1 ∧ 0 ≤ q ∧ q ≤ 65535 then
        match jsGet config "projects" with
        | .arr ps => validateProjectList ps 0
        | v =>
          .error ("Invalid configuration: \"projects\" must be an array, got " ++
                   jsTypeof v)
      else
        .error ("Invalid configuration: \"port\" must be a valid port number (0-65535), got " ++
                 ratToString q)
    | v =>
      .error ("Invalid configuration: \"port\" must be a number, got " ++ jsTypeof v)
  | _ => .error "Configuration must be a valid JSON object"

/-- Modelled from the spec (§4.5 wording, for the refinement direction of
the claim): "top level requires `port` (integer 0–65535) and `projects`
(array); each project entry requires non-empty string `id`, `name`, `dir`,
`start`, and integer `port` in 0–65535" (non-empty after trimming, as the
validator reads it). -/
def specValidPort (v : JSVal) : Bool :=
  match v with
  | .num q => q.den = 1 && decide (0 ≤ q) && decide (q ≤ 65535)
  | _ => false

/-- Modelled from the spec: a well-formed project entry per §4.5. -/
def specValidProject (p : JSVal) : Bool :=
  isNonBlankStr (jsGet p "id") && isNonBlankStr (jsGet p "name") &&
    isNonBlankStr (jsGet p "dir") && isNonBlankStr (jsGet p "start") &&
    specValidPort (jsGet p "port")

/-- Modelled from the spec: a well-formed configuration document per §4.5. -/
def specWellFormedConfig (c : JSVal) : Bool :=
  (match c with | .obj _ => true | _ => false) &&
    specValidPort (jsGet c "port") &&
    (match jsGet c "projects" with
     | .arr ps => ps.all specValidProject
     | _ => false)

/-! ### Helper lemmas about the association-list state store -/

theorem lookup_setEntry_self (l : List (String × ProjectRuntimeState))
    (k : String) (v : ProjectRuntimeState) :
    (setEntry l k v).lookup k = some v := by
  induction l with
  | nil => simp [setEntry, List.lookup]
  | cons hd tl ih =>
    obtain ⟨k', v'⟩ := hd
    by_cases h : k' = k
    · subst h
      simp [setEntry, List.lookup]
    · simp only [setEntry, if_neg h, List.lookup]
      have : (k == k') = false := by
        simp [Ne.symm h]
      rw [this]
      exact ih

theorem lookup_append_right_self (l : List (String × ProjectRuntimeState))
    (k : String) (v : ProjectRuntimeState) (h : l.lookup k = none) :
    (l ++ [(k, v)]).lookup k = some v := by
  induction l with
  | nil => simp [List.lookup]
  | cons hd tl ih =>
    obtain ⟨k', v'⟩ := hd
    simp only [List.lookup, List.cons_append] at h ⊢
    cases hk : (k == k') with
    | true =>
      rw [hk] at h
      simp at h
    | false =>
      rw [hk] at h
      exact ih h

theorem stateGet_setProjectState_self (disk : Disk) (k : String)
    (v : ProjectRuntimeState) :
    stateGetProjectState (setProjectState disk k v) k = v := by
  simp only [stateGetProjectState, getProjectStateOp, setProjectState, loadState,
    lookup_setEntry_self, Option.isSome_some, if_true, Option.getD_some]

/-! ### C8 -/

/-- C8: for every project identifier not present in the persisted state
document (including when the state file itself is absent), a runtime-state
read via `getProjectState` returns the empty record with all fields absent
(and, being a total function of the document, raises no error). -/
theorem getProjectState_unknown_empty (disk : Disk) (projectId : String)
    (h : disk = none ∨ ∃ doc, disk = some doc ∧ doc.projects.lookup projectId = none) :
    stateGetProjectState disk projectId = emptyRuntimeState ∧
    (stateGetProjectState disk projectId).pid = none ∧
    (stateGetProjectState disk projectId).startedAt = none ∧
    (stateGetProjectState disk projectId).tunnelPid = none ∧
    (stateGetProjectState disk projectId).tunnelStartedAt = none ∧
    (stateGetProjectState disk projectId).tunnelUrl = none ∧
    (stateGetProjectState disk projectId).tunnelUrlDiscoveredAt = none := by
  have hmain : stateGetProjectState disk projectId = emptyRuntimeState := by
    rcases h with h | ⟨doc, hdoc, hlk⟩
    · subst h
      simp [stateGetProjectState, getProjectStateOp, loadState, List.lookup,
        emptyRuntimeState]
    · subst hdoc
      simp only [stateGetProjectState, getProjectStateOp, loadState, hlk,
        Option.isSome_none, Bool.false_eq_true, if_false,
        lookup_append_right_self doc.projects projectId emptyRuntimeState hlk,
        Option.getD_some]
  refine ⟨hmain, ?_, ?_, ?_, ?_, ?_, ?_⟩ <;> rw [hmain] <;> rfl

/-- Witness for C8 at the absent state file and a concrete id. -/
theorem getProjectState_unknown_empty_witness :
    stateGetProjectState none "web" = emptyRuntimeState ∧
    (stateGetProjectState none "web").pid = none ∧
    (stateGetProjectState none "web").startedAt = none ∧
    (stateGetProjectState none "web").tunnelPid = none ∧
    (stateGetProjectState none "web").tunnelStartedAt = none ∧
    (stateGetProjectState none "web").tunnelUrl = none ∧
    (stateGetProjectState none "web").tunnelUrlDiscoveredAt = none :=
  getProjectState_unknown_empty none "web" (Or.inl rfl)

/-! ### C10 -/

/-- C10: no read-only operation mutates the persisted state document:
`getProjectState` inserts the lazy empty record only into its in-memory
copy and never calls `saveState`, so it and every read path built on it
(`isProjectRunning`, `getProjectPid`, `isTunnelRunning`, `getTunnelUrl`,
and the router's `buildProjectStatus`) leave the on-disk document
unchanged. -/
theorem read_paths_preserve_disk (env : Env) (disk : Disk)
    (projectId : String) (project : Project) :
    (getProjectStateOp disk projectId).2 = disk ∧
    diskAfter (isProjectRunning env disk projectId) disk = disk ∧
    diskAfter (getProjectPid env disk projectId) disk = disk ∧
    diskAfter (isTunnelRunning env disk projectId) disk = disk ∧
    diskAfter (getTunnelUrl env disk projectId) disk = disk ∧
    diskAfter (buildProjectStatus env disk project) disk = disk := by
  refine ⟨rfl, ?_, ?_, ?_, ?_, ?_⟩
  · by_cases h : projectId = "" <;> simp [isProjectRunning, h, diskAfter]
  · by_cases h : projectId = ""
    · simp [getProjectPid, h, diskAfter]
    · simp only [getProjectPid, if_neg h]
      split <;> rfl
  · by_cases h : projectId = "" <;> simp [isTunnelRunning, h, diskAfter]
  · by_cases h : projectId = ""
    · simp [getTunnelUrl, h, diskAfter]
    · simp only [getTunnelUrl, if_neg h, isTunnelRunning]
      split <;> rfl
  · by_cases h : project.id = ""
    · simp [buildProjectStatus, isProjectRunning, h, diskAfter]
    · cases halive : isProcessAlive env (stateGetProjectState disk project.id).tunnelPid <;>
        simp [buildProjectStatus, isProjectRunning, isTunnelRunning,
          getTunnelUrl, if_neg h, halive, diskAfter]

/-! ### C1 -/

/-- JS truthiness of a stored pid: a pid is recorded when the field holds a
non-zero number (`!pid` is the test the source uses). -/
def pidRecorded (pid : Option Int) : Bool :=
  match pid with
  | none => false
  | some p => p != 0

/-- C1: for a project with a non-empty id, `stopProject` with no recorded
pid returns false with no kill syscall and no state write; with a recorded
pid it SIGTERMs the process group first (falling back to the single pid),
returns true iff one of the attempts succeeded, and regardless of kill
success persists the runtime state with `pid` and `startedAt` cleared to
null while preserving all tunnel fields. -/
theorem stopProject_contract (env : Env) (disk : Disk) (project : Project)
    (hid : project.id ≠ "") :
    (pidRecorded (stateGetProjectState disk project.id).pid = false →
       stopProject env disk project = .ok (false, disk, [])) ∧
    (∀ p : Int, (stateGetProjectState disk project.id).pid = some p → p ≠ 0 →
       ∃ d' : Disk,
         stopProject env disk project =
           .ok ((env.killGroupOk p || env.killOneOk p), d',
                if env.killGroupOk p then [Syscall.killGroup p]
                else [Syscall.killGroup p, Syscall.killOne p]) ∧
         (stateGetProjectState d' project.id).pid = none ∧
         (stateGetProjectState d' project.id).startedAt = none ∧
         (stateGetProjectState d' project.id).tunnelPid =
           (stateGetProjectState disk project.id).tunnelPid ∧
         (stateGetProjectState d' project.id).tunnelStartedAt =
           (stateGetProjectState disk project.id).tunnelStartedAt ∧
         (stateGetProjectState d' project.id).tunnelUrl =
           (stateGetProjectState disk project.id).tunnelUrl ∧
         (stateGetProjectState d' project.id).tunnelUrlDiscoveredAt =
           (stateGetProjectState disk project.id).tunnelUrlDiscoveredAt) := by
  constructor
  · intro hfalsy
    rcases hpid : (stateGetProjectState disk project.id).pid with _ | p
    · simp [stopProject, if_neg hid, hpid]
    · rw [hpid] at hfalsy
      have hp0 : p = 0 := by simpa [pidRecorded] using hfalsy
      subst hp0
      simp [stopProject, if_neg hid, hpid]
  · intro p hpid hp
    refine ⟨setProjectState disk project.id
      { stateGetProjectState disk project.id with pid := none, startedAt := none },
      ?_, ?_⟩
    · simp only [stopProject, if_neg hid, hpid, if_neg hp]
      cases hk : env.killGroupOk p <;> simp [hk]
    · rw [stateGet_setProjectState_self]
      exact ⟨rfl, rfl, rfl, rfl, rfl, rfl⟩

/-- Witness for C1: both branches at concrete inputs — a state with no pid
for project "a" (false, no syscalls, disk untouched), and a state recording
pid 42 under an environment where the group kill fails and the single kill
succeeds (true, both syscalls traced, state cleared, tunnel fields kept). -/
theorem stopProject_contract_witness :
    (stopProject ⟨fun _ => false, fun _ => false, fun _ => true, 9, 5⟩
        (some { projects := [("a", { tunnelUrl := some "u" })] }) { id := "a" } =
      .ok (false, some { projects := [("a", { tunnelUrl := some "u" })] }, [])) ∧
    (∃ d' : Disk,
      stopProject ⟨fun _ => false, fun _ => false, fun _ => true, 9, 5⟩
          (some { projects :=
            [("a", { pid := some 42, startedAt := some 7, tunnelPid := some 8,
                     tunnelUrl := some "u" })] }) { id := "a" } =
        .ok (true, d', [Syscall.killGroup 42, Syscall.killOne 42]) ∧
      (stateGetProjectState d' "a").pid = none ∧
      (stateGetProjectState d' "a").startedAt = none ∧
      (stateGetProjectState d' "a").tunnelPid = some 8 ∧
      (stateGetProjectState d' "a").tunnelUrl = some "u") := by
  constructor
  · exact (stopProject_contract ⟨fun _ => false, fun _ => false, fun _ => true, 9, 5⟩
      (some { projects := [("a", { tunnelUrl := some "u" })] }) { id := "a" }
      (by decide)).1 (by decide)
  · obtain ⟨d', hrun, hpid, hstart, htp, hts, htu, htd⟩ :=
      (stopProject_contract ⟨fun _ => false, fun _ => false, fun _ => true, 9, 5⟩
        (some { projects :=
          [("a", { pid := some 42, startedAt := some 7, tunnelPid := some 8,
                   tunnelUrl := some "u" })] }) { id := "a" }
        (by decide)).2 42 (by decide) (by decide)
    refine ⟨d', ?_, hpid, hstart, ?_, ?_⟩
    · simpa using hrun
    · rw [htp]; decide
    · rw [htu]; decide

/-! ### C2 -/

/-- C2: `startProject` is idempotent while the spawned process stays alive:
for a valid project whose stored pid is alive, it returns that pid,
performs no spawn syscall, and leaves the persisted state file untouched. -/
theorem startProject_idempotent (env : Env) (disk : Disk) (project : Project)
    (hid : project.id ≠ "") (hstart : project.start ≠ "") (hdir : project.dir ≠ "")
    (p : Int) (hpid : (stateGetProjectState disk project.id).pid = some p)
    (halive : isProcessAlive env (some p) = true) :
    startProject env disk project = .ok (p, disk, []) := by
  simp only [startProject, hid, hstart, hdir, false_or, if_false, or_self,
    hpid, halive, if_true, Option.getD_some]

/-- Witness for C2: project "a" with stored pid 42 alive under the
environment; `startProject` returns 42, spawns nothing, writes nothing. -/
theorem startProject_idempotent_witness :
    startProject ⟨fun _ => true, fun _ => false, fun _ => false, 9, 5⟩
        (some { projects := [("a", { pid := some 42, startedAt := some 7 })] })
        { id := "a", name := "A", dir := "d", start := "npm start" } =
      .ok (42, some { projects := [("a", { pid := some 42, startedAt := some 7 })] }, []) :=
  startProject_idempotent ⟨fun _ => true, fun _ => false, fun _ => false, 9, 5⟩
    (some { projects := [("a", { pid := some 42, startedAt := some 7 })] })
    { id := "a", name := "A", dir := "d", start := "npm start" }
    (by decide) (by decide) (by decide) 42 (by decide) (by decide)

/-! ### C3 -/

/-- C3: for a non-empty project id, `getTunnelUrl` returns null whenever
the stored `tunnelPid` is absent or not assessed alive by the signal-0
probe, regardless of what URL string is stored; when the tunnel process is
alive it returns the stored (truthy) `tunnelUrl`, or null when none has
been discovered. -/
theorem getTunnelUrl_contract (env : Env) (disk : Disk) (projectId : String)
    (hid : projectId ≠ "") :
    (isProcessAlive env (stateGetProjectState disk projectId).tunnelPid = false →
       getTunnelUrl env disk projectId = .ok (none, disk)) ∧
    (isProcessAlive env (stateGetProjectState disk projectId).tunnelPid = true →
       ((stateGetProjectState disk projectId).tunnelUrl = none →
          getTunnelUrl env disk projectId = .ok (none, disk)) ∧
       (∀ u : String, (stateGetProjectState disk projectId).tunnelUrl = some u →
          u ≠ "" → getTunnelUrl env disk projectId = .ok (some u, disk))) := by
  constructor
  · intro hdead
    simp [getTunnelUrl, isTunnelRunning, if_neg hid, hdead]
  · intro halive
    constructor
    · intro hurl
      simp [getTunnelUrl, isTunnelRunning, if_neg hid, halive, hurl, strOrNull]
    · intro u hurl hne
      simp [getTunnelUrl, isTunnelRunning, if_neg hid, halive, hurl, strOrNull, hne]

/-- Witness for C3: a dead tunnel pid with a URL still stored yields null;
an alive tunnel pid yields the stored URL. -/
theorem getTunnelUrl_contract_witness :
    (getTunnelUrl ⟨fun _ => false, fun _ => false, fun _ => false, 9, 5⟩
        (some { projects :=
          [("a", { tunnelPid := some 7, tunnelUrl := some "https://x.trycloudflare.com" })] })
        "a" =
      .ok (none,
        some { projects :=
          [("a", { tunnelPid := some 7, tunnelUrl := some "https://x.trycloudflare.com" })] })) ∧
    (getTunnelUrl ⟨fun _ => true, fun _ => false, fun _ => false, 9, 5⟩
        (some { projects :=
          [("a", { tunnelPid := some 7, tunnelUrl := some "https://x.trycloudflare.com" })] })
        "a" =
      .ok (some "https://x.trycloudflare.com",
        some { projects :=
          [("a", { tunnelPid := some 7, tunnelUrl := some "https://x.trycloudflare.com" })] })) := by
  constructor
  · exact (getTunnelUrl_contract ⟨fun _ => false, fun _ => false, fun _ => false, 9, 5⟩
      (some { projects :=
        [("a", { tunnelPid := some 7, tunnelUrl := some "https://x.trycloudflare.com" })] })
      "a" (by decide)).1 (by decide)
  · exact ((getTunnelUrl_contract ⟨fun _ => true, fun _ => false, fun _ => false, 9, 5⟩
      (some { projects :=
        [("a", { tunnelPid := some 7, tunnelUrl := some "https://x.trycloudflare.com" })] })
      "a" (by decide)).2 (by decide)).2 "https://x.trycloudflare.com" (by decide) (by decide)

/-! ### C4 -/

theorem processTunnelOutput_captured (projectId : String) (scan : TunnelScan)
    (evs : List (String × Int)) (h : scan.urlCaptured = true) :
    processTunnelOutput projectId scan evs = scan := by
  induction evs with
  | nil => rfl
  | cons ev rest ih =>
    simp only [processTunnelOutput, List.foldl_cons] at ih ⊢
    rw [onTunnelStdout, if_pos h]
    exact ih

theorem processTunnelOutput_no_match (projectId : String) (disk : Disk)
    (evs : List (String × Int)) (h : ∀ ev ∈ evs, findUrlInChunk ev.1 = none) :
    processTunnelOutput projectId ⟨false, disk⟩ evs = ⟨false, disk⟩ := by
  induction evs with
  | nil => rfl
  | cons ev rest ih =>
    simp only [processTunnelOutput, List.foldl_cons] at ih ⊢
    have hev : findUrlInChunk ev.1 = none := h ev (List.mem_cons_self ev rest)
    rw [onTunnelStdout]
    simp only [if_neg (by simp : ¬(false = true)), hev]
    exact ih fun e he => h e (List.mem_cons_of_mem ev he)

/-- C4: within one `startTunnel` session, the first stdout chunk matching
the `https://<name>.trycloudflare.com` pattern writes the matched URL and a
discovery timestamp into the project's runtime state exactly once; from
then on the captured flag makes the handler a no-op, so later matching
chunks never overwrite the stored `tunnelUrl` (the whole scan state after
the capturing chunk equals the state right at the capture). -/
theorem tunnel_url_first_match_captured_once (projectId : String) (disk : Disk)
    (pre post : List (String × Int)) (c : String) (t : Int) (url : String)
    (hpre : ∀ ev ∈ pre, findUrlInChunk ev.1 = none)
    (hc : findUrlInChunk c = some url) :
    processTunnelOutput projectId ⟨false, disk⟩ (pre ++ (c, t) :: post) =
      processTunnelOutput projectId ⟨false, disk⟩ (pre ++ [(c, t)]) ∧
    (processTunnelOutput projectId ⟨false, disk⟩ (pre ++ (c, t) :: post)).urlCaptured = true ∧
    (stateGetProjectState
        (processTunnelOutput projectId ⟨false, disk⟩ (pre ++ (c, t) :: post)).disk
        projectId).tunnelUrl = some url ∧
    (stateGetProjectState
        (processTunnelOutput projectId ⟨false, disk⟩ (pre ++ (c, t) :: post)).disk
        projectId).tunnelUrlDiscoveredAt = some t := by
  have hstep : onTunnelStdout projectId ⟨false, disk⟩ (c, t) =
      ⟨true, setProjectState disk projectId
        { stateGetProjectState disk projectId with
            tunnelUrl := some url, tunnelUrlDiscoveredAt := some t }⟩ := by
    rw [onTunnelStdout]
    simp only [if_neg (by simp : ¬(false = true)), hc]
  have hfold : ∀ evs : List (String × Int),
      processTunnelOutput projectId ⟨false, disk⟩ (pre ++ (c, t) :: evs) =
        ⟨true, setProjectState disk projectId
          { stateGetProjectState disk projectId with
              tunnelUrl := some url, tunnelUrlDiscoveredAt := some t }⟩ := by
    intro evs
    have h1 : processTunnelOutput projectId ⟨false, disk⟩ (pre ++ (c, t) :: evs) =
        processTunnelOutput projectId
          (processTunnelOutput projectId ⟨false, disk⟩ pre) ((c, t) :: evs) := by
      simp [processTunnelOutput, List.foldl_append]
    rw [h1, processTunnelOutput_no_match projectId disk pre hpre]
    simp only [processTunnelOutput, List.foldl_cons, hstep]
    exact processTunnelOutput_captured projectId _ evs rfl
  refine ⟨?_, ?_, ?_, ?_⟩
  · rw [hfold post, hfold []]
  · rw [hfold post]
  · rw [hfold post]
    simp only [stateGet_setProjectState_self]
  · rw [hfold post]
    simp only [stateGet_setProjectState_self]

/-- Witness for C4: a non-matching chunk, then a matching chunk at time 2,
then a later chunk matching a different URL; the stored URL stays the first
one with its timestamp, and the scan state never changes after capture. -/
theorem tunnel_url_first_match_captured_once_witness :
    processTunnelOutput "a" ⟨false, none⟩
        ([("connecting to edge", 1)] ++ ("ready at https://x1.trycloudflare.com", 2) ::
          [("https://x2.trycloudflare.com", 3)]) =
      processTunnelOutput "a" ⟨false, none⟩
        ([("connecting to edge", 1)] ++ [("ready at https://x1.trycloudflare.com", 2)]) ∧
    (processTunnelOutput "a" ⟨false, none⟩
        ([("connecting to edge", 1)] ++ ("ready at https://x1.trycloudflare.com", 2) ::
          [("https://x2.trycloudflare.com", 3)])).urlCaptured = true ∧
    (stateGetProjectState
        (processTunnelOutput "a" ⟨false, none⟩
          ([("connecting to edge", 1)] ++ ("ready at https://x1.trycloudflare.com", 2) ::
            [("https://x2.trycloudflare.com", 3)])).disk
        "a").tunnelUrl = some "https://x1.trycloudflare.com" ∧
    (stateGetProjectState
        (processTunnelOutput "a" ⟨false, none⟩
          ([("connecting to edge", 1)] ++ ("ready at https://x1.trycloudflare.com", 2) ::
            [("https://x2.trycloudflare.com", 3)])).disk
        "a").tunnelUrlDiscoveredAt = some 2 :=
  tunnel_url_first_match_captured_once "a" none
    [("connecting to edge", 1)] [("https://x2.trycloudflare.com", 3)]
    "ready at https://x1.trycloudflare.com" 2 "https://x1.trycloudflare.com"
    (by intro ev hev
        simp only [List.mem_singleton] at hev
        subst hev
        decide)
    (by decide)

/-! ### C6 -/

/-- C6: for non-empty id and type and any `maxBytes`, `readLog` returns the
empty string when the log file is absent, and otherwise exactly the last
`min(fileSize, maxBytes)` bytes of the file (the window then decoded as
UTF-8 by the source): the result is never longer than `maxBytes` bytes and
is a suffix of the file, i.e. the most recently appended content. -/
theorem readLog_tail_window (projectId logType : String) (maxBytes : Nat)
    (hid : projectId ≠ "") (htype : logType ≠ "") :
    readLog none projectId logType maxBytes = .ok [] ∧
    (∀ bytes : List UInt8,
      readLog (some bytes) projectId logType maxBytes =
        .ok (bytes.drop (bytes.length - maxBytes)) ∧
      (bytes.drop (bytes.length - maxBytes)).length = min bytes.length maxBytes ∧
      (bytes.drop (bytes.length - maxBytes)).length ≤ maxBytes ∧
      bytes.drop (bytes.length - maxBytes) <:+ bytes) := by
  have hcond : ¬(projectId = "" ∨ logType = "") := by
    rintro (h | h) <;> [exact hid h; exact htype h]
  refine ⟨by simp [readLog, hcond], fun bytes => ⟨by simp [readLog, hcond], ?_, ?_, ?_⟩⟩
  · rw [List.length_drop]
    omega
  · rw [List.length_drop]
    omega
  · exact List.drop_suffix _ _

/-- Witness for C6: a five-byte file read with `maxBytes = 2` yields
exactly the last two bytes. -/
theorem readLog_tail_window_witness :
    readLog none "a" "app" 2 = .ok [] ∧
    (readLog (some [1, 2, 3, 4, 5]) "a" "app" 2 =
        .ok ([1, 2, 3, 4, 5].drop ([1, 2, 3, 4, 5].length - 2)) ∧
      ([1, 2, 3, 4, 5].drop ([1, 2, 3, 4, 5].length - 2)).length = min [1, 2, 3, 4, 5].length 2 ∧
      ([1, 2, 3, 4, 5].drop ([1, 2, 3, 4, 5].length - 2)).length ≤ 2 ∧
      ([1, 2, 3, 4, 5] : List UInt8).drop ([1, 2, 3, 4, 5].length - 2) <:+ [1, 2, 3, 4, 5]) :=
  ⟨(readLog_tail_window "a" "app" 2 (by decide) (by decide)).1,
   (readLog_tail_window "a" "app" 2 (by decide) (by decide)).2 [1, 2, 3, 4, 5]⟩

/-! ### C9 -/

/-- C9: in every HTTP project status object, `pid`, `startedAt`,
`tunnelPid` and `tunnelStartedAt` are taken directly from stored state
(coerced to null only when falsy) with no liveness check, so a project
whose recorded process has died is reported `running = false` with a
non-null stale pid — unlike `getProjectPid`, which returns null whenever
the stored pid is not alive. -/
theorem buildProjectStatus_stale_pid (env : Env) (disk : Disk)
    (project : Project) (hid : project.id ≠ "") :
    ∃ s : ProjectStatus,
      buildProjectStatus env disk project = .ok (s, disk) ∧
      s.pid = numOrNull (stateGetProjectState disk project.id).pid ∧
      s.startedAt = numOrNull (stateGetProjectState disk project.id).startedAt ∧
      s.tunnelPid = numOrNull (stateGetProjectState disk project.id).tunnelPid ∧
      s.tunnelStartedAt =
        numOrNull (stateGetProjectState disk project.id).tunnelStartedAt ∧
      (∀ p : Int, (stateGetProjectState disk project.id).pid = some p → p ≠ 0 →
        env.alive p = false →
          s.running = false ∧ s.pid = some p ∧
          getProjectPid env disk project.id = .ok (none, disk)) := by
  refine ⟨{ id := project.id, name := project.name, dir := project.dir,
            start := project.start, port := project.port, tunnelPort := project.port,
            running := isProcessAlive env (stateGetProjectState disk project.id).pid,
            pid := numOrNull (stateGetProjectState disk project.id).pid,
            startedAt := numOrNull (stateGetProjectState disk project.id).startedAt,
            tunnelRunning := isProcessAlive env (stateGetProjectState disk project.id).tunnelPid,
            tunnelPid := numOrNull (stateGetProjectState disk project.id).tunnelPid,
            tunnelUrl :=
              if isProcessAlive env (stateGetProjectState disk project.id).tunnelPid
              then strOrNull (stateGetProjectState disk project.id).tunnelUrl else none,
            tunnelStartedAt :=
              numOrNull (stateGetProjectState disk project.id).tunnelStartedAt },
          ?_, rfl, rfl, rfl, rfl, ?_⟩
  · cases htal : isProcessAlive env (stateGetProjectState disk project.id).tunnelPid <;>
      simp [buildProjectStatus, isProjectRunning, isTunnelRunning, getTunnelUrl,
        if_neg hid, htal]
  · intro p hp hnz hdead
    have hrun : isProcessAlive env (stateGetProjectState disk project.id).pid = false := by
      rw [hp]
      simp [isProcessAlive, hnz, hdead]
    refine ⟨hrun, ?_, ?_⟩
    · rw [hp]
      simp [numOrNull, hnz]
    · simp [getProjectPid, if_neg hid, hrun]

/-- Witness for C9: pid 42 recorded but dead — the status reports
`running = false` with `pid = 42`, while `getProjectPid` returns null. -/
theorem buildProjectStatus_stale_pid_witness :
    ∃ s : ProjectStatus,
      buildProjectStatus ⟨fun _ => false, fun _ => false, fun _ => false, 9, 5⟩
          (some { projects := [("a", { pid := some 42, startedAt := some 7 })] })
          { id := "a", name := "A", dir := "d", start := "s" } =
        .ok (s, some { projects := [("a", { pid := some 42, startedAt := some 7 })] }) ∧
      s.running = false ∧ s.pid = some 42 ∧
      getProjectPid ⟨fun _ => false, fun _ => false, fun _ => false, 9, 5⟩
          (some { projects := [("a", { pid := some 42, startedAt := some 7 })] }) "a" =
        .ok (none, some { projects := [("a", { pid := some 42, startedAt := some 7 })] }) := by
  obtain ⟨s, hbuild, _, _, _, _, hstale⟩ :=
    buildProjectStatus_stale_pid ⟨fun _ => false, fun _ => false, fun _ => false, 9, 5⟩
      (some { projects := [("a", { pid := some 42, startedAt := some 7 })] })
      { id := "a", name := "A", dir := "d", start := "s" } (by decide)
  obtain ⟨hrun, hpid, hnull⟩ := hstale 42 (by decide) (by decide) (by decide)
  exact ⟨s, hbuild, hrun, hpid, hnull⟩

/-! ### C7 -/

theorem data_reverse_append (a b : String) :
    (a ++ b).data.reverse = b.data.reverse ++ a.data.reverse := by
  rw [String.data_append, List.reverse_append]

/-- `endsWith "\n"` looks only at the last character. -/
theorem strEndsWith_lf_head (s : String) :
    strEndsWith s "\n" =
      match s.data.reverse with
      | [] => false
      | c :: _ => decide (c = '\n') := by
  show beginsWith "\n".data.reverse s.data.reverse = _
  rcases s.data.reverse with _ | ⟨c, l⟩
  · rfl
  · show (decide ('\n' = c) && true) = decide (c = '\n')
    simp [eq_comm]

theorem strEndsWith_append_lf (s : String) : strEndsWith (s ++ "\n") "\n" = true := by
  rw [strEndsWith_lf_head, data_reverse_append]
  rfl

theorem strEndsWith_lf_of_right (a b : String) (h : strEndsWith b "\n" = true) :
    strEndsWith (a ++ b) "\n" = true := by
  rw [strEndsWith_lf_head, data_reverse_append]
  rw [strEndsWith_lf_head] at h
  rcases hb : b.data.reverse with _ | ⟨c, l⟩
  · rw [hb] at h
    exact absurd h (by simp)
  · rw [hb] at h
    simpa using h

theorem strEndsWith_lf_of_right_neg (a b : String) (hb : b ≠ "")
    (h : strEndsWith b "\n" = false) : strEndsWith (a ++ b) "\n" = false := by
  rw [strEndsWith_lf_head, data_reverse_append]
  rw [strEndsWith_lf_head] at h
  rcases hrev : b.data.reverse with _ | ⟨c, l⟩
  · exact absurd (by simpa using congrArg List.reverse hrev) fun hnil =>
      hb (by cases b with | mk l => simp at hnil; simp [hnil])
  · rw [hrev] at h
    simpa using h

/-- Counterexample to C7 as stated: for the message `"x\n\n"` (already
ending in two newlines) the appended line is `"[T] x\n\n"`, which ends with
two trailing newlines, not exactly one — `appendLog` only guarantees it
never *adds* a doubled newline. -/
theorem appendLog_exactly_one_newline_ctrex :
    appendLog (some "") "p" "app" "x\n\n" "T" = .ok "[T] x\n\n" ∧
    strEndsWith "[T] x\n\n" "\n" = true ∧
    strEndsWith "[T] x\n\n" "\n\n" = true := by
  refine ⟨?_, by decide, by decide⟩
  rfl

/-- C7 (amended): `appendLog` throws when any of the three arguments is
empty; otherwise it appends the line `[<timestamp>] <message>` which ends
with at least one trailing newline: a newline is added exactly when the
message does not already end with one, so the added newline is never
doubled, and a message not ending in a newline yields exactly one. -/
theorem appendLog_contract (file : Option String)
    (projectId logType message timestamp : String) :
    (projectId = "" ∨ logType = "" ∨ message = "" →
       appendLog file projectId logType message timestamp =
         .error "projectId, logType, and message are required") ∧
    (projectId ≠ "" → logType ≠ "" → message ≠ "" →
       appendLog file projectId logType message timestamp =
         .ok ((file.getD "") ++ logLine timestamp message) ∧
       strEndsWith (logLine timestamp message) "\n" = true ∧
       (strEndsWith message "\n" = true →
          logLine timestamp message = "[" ++ timestamp ++ "] " ++ message) ∧
       (strEndsWith message "\n" = false →
          logLine timestamp message = ("[" ++ timestamp ++ "] " ++ message) ++ "\n" ∧
          strEndsWith (logLine timestamp message) "\n\n" = false)) := by
  constructor
  · intro h
    simp [appendLog, h]
  · intro hid htype hmsg
    have hok : appendLog file projectId logType message timestamp =
        .ok ((file.getD "") ++ logLine timestamp message) := by
      simp [appendLog, hid, htype, hmsg]
    have hline : ("[" ++ timestamp ++ "] " ++ message) =
        ("[" ++ timestamp ++ "] ") ++ message := by
      simp [String.append_assoc]
    by_cases hend : strEndsWith message "\n" = true
    · have hlineEnds : strEndsWith ("[" ++ timestamp ++ "] " ++ message) "\n" = true := by
        rw [hline]
        exact strEndsWith_lf_of_right _ _ hend
      have hlogLine : logLine timestamp message = "[" ++ timestamp ++ "] " ++ message := by
        rw [logLine, if_pos hlineEnds]
      refine ⟨hok, ?_, fun _ => hlogLine, fun hc => absurd hend (by simp [hc])⟩
      rw [hlogLine]
      exact hlineEnds
    · have hendf : strEndsWith message "\n" = false := by
        simpa using hend
      have hlineEnds : strEndsWith ("[" ++ timestamp ++ "] " ++ message) "\n" = false := by
        rw [hline]
        exact strEndsWith_lf_of_right_neg _ _ hmsg hendf
      have hlogLine : logLine timestamp message =
          ("[" ++ timestamp ++ "] " ++ message) ++ "\n" := by
        rw [logLine, if_neg (by simp [hlineEnds])]
      refine ⟨hok, ?_, fun hc => absurd hc (by simp [hendf]), fun _ => ⟨hlogLine, ?_⟩⟩
      · rw [hlogLine]
        exact strEndsWith_append_lf _
      · rw [hlogLine]
        have key : ∀ s : String, strEndsWith (s ++ "\n") "\n\n" = strEndsWith s "\n" := by
          intro s
          unfold strEndsWith
          rw [data_reverse_append]
          have e1 : "\n".data.reverse = ['\n'] := rfl
          have e2 : "\n\n".data.reverse = ['\n', '\n'] := rfl
          rw [e1, e2]
          simp [beginsWith]
        rw [key]
        exact hlineEnds

/-- Witness for C7 (amended): an empty projectId throws; a message without
a trailing newline gets exactly one appended. -/
theorem appendLog_contract_witness :
    (appendLog none "" "app" "m" "T" =
       .error "projectId, logType, and message are required") ∧
    (appendLog (some "old\n") "p" "app" "msg" "T" =
       .ok ("old\n" ++ logLine "T" "msg") ∧
     strEndsWith (logLine "T" "msg") "\n" = true ∧
     logLine "T" "msg" = ("[" ++ "T" ++ "] " ++ "msg") ++ "\n" ∧
     strEndsWith (logLine "T" "msg") "\n\n" = false) := by
  constructor
  · exact (appendLog_contract none "" "app" "m" "T").1 (Or.inl rfl)
  · obtain ⟨hok, hends, hyes, hno⟩ :=
      (appendLog_contract (some "old\n") "p" "app" "msg" "T").2
        (by decide) (by decide) (by decide)
    obtain ⟨heq, hnd⟩ := hno (by decide)
    exact ⟨hok, hends, heq, hnd⟩

/-! ### C5 -/

theorem validateProjectList_append_error (pre : List JSVal) (i : Nat) (p : JSVal)
    (post : List JSVal) (e : String)
    (hok : ∀ (j : Nat) (pj : JSVal), pre[j]? = some pj →
      validateProject pj (i + j) = .ok ())
    (herr : validateProject p (i + pre.length) = .error e) :
    validateProjectList (pre ++ p :: post) i = .error e := by
  induction pre generalizing i with
  | nil =>
    simp only [List.nil_append, validateProjectList]
    have herr0 : validateProject p i = .error e := herr
    rw [herr0]
  | cons a rest ih =>
    have ha : validateProject a i = .ok () := by
      have h0 := hok 0 a (by simp)
      simpa using h0
    simp only [List.cons_append, validateProjectList, ha]
    apply ih (i + 1)
    · intro j pj hj
      have h2 := hok (j + 1) pj (by simpa using hj)
      have h3 : i + (j + 1) = i + 1 + j := by omega
      rwa [h3] at h2
    · have h4 : i + (a :: rest).length = i + 1 + rest.length := by
        simp only [List.length_cons]
        omega
      rwa [h4] at herr

theorem isUndef_false_of_nonBlank (v : JSVal) (h : isNonBlankStr v = true) :
    isUndefined v = false := by
  cases v <;> simp_all [isNonBlankStr, isUndefined]

theorem isUndef_false_of_validPort (v : JSVal) (h : specValidPort v = true) :
    isUndefined v = false := by
  cases v <;> simp_all [specValidPort, isUndefined]

theorem validateProject_of_specValid (p : JSVal) (i : Nat)
    (h : specValidProject p = true) : validateProject p i = .ok () := by
  obtain ⟨⟨⟨⟨hid, hname⟩, hdir⟩, hstart⟩, hport⟩ :
      (((isNonBlankStr (jsGet p "id") = true ∧ isNonBlankStr (jsGet p "name") = true) ∧
        isNonBlankStr (jsGet p "dir") = true) ∧
        isNonBlankStr (jsGet p "start") = true) ∧
        specValidPort (jsGet p "port") = true := by
    simpa [specValidProject, Bool.and_eq_true] using h
  cases p with
  | obj fields =>
    have hobj : jsObjecty (JSVal.obj fields) = true := rfl
    have hmiss : firstMissingField (JSVal.obj fields) = none := by
      rw [firstMissingField, List.find?_eq_none]
      intro f hf
      simp only [requiredFields, List.mem_cons, List.not_mem_nil, or_false] at hf
      rcases hf with rfl | rfl | rfl | rfl | rfl
      · simp [isUndef_false_of_nonBlank _ hid]
      · simp [isUndef_false_of_nonBlank _ hname]
      · simp [isUndef_false_of_nonBlank _ hdir]
      · simp [isUndef_false_of_nonBlank _ hstart]
      · simp [isUndef_false_of_validPort _ hport]
    rw [validateProject, if_neg (by simp [hobj]), hmiss]
    rw [if_neg (by simp [hid]), if_neg (by simp [hname]), if_neg (by simp [hdir]),
      if_neg (by simp [hstart])]
    cases hq : jsGet (JSVal.obj fields) "port" with
    | num q =>
      rw [hq] at hport
      have hcond : q.den = 1 ∧ 0 ≤ q ∧ q ≤ 65535 := by
        simpa [specValidPort, Bool.and_eq_true, decide_eq_true_eq, and_assoc] using hport
      simp only [if_pos hcond]
    | undefined => rw [hq] at hport; simp [specValidPort] at hport
    | null => rw [hq] at hport; simp [specValidPort] at hport
    | bool b => rw [hq] at hport; simp [specValidPort] at hport
    | str s => rw [hq] at hport; simp [specValidPort] at hport
    | arr xs => rw [hq] at hport; simp [specValidPort] at hport
    | obj o => rw [hq] at hport; simp [specValidPort] at hport
  | undefined => simp [jsGet, isNonBlankStr] at hid
  | null => simp [jsGet, isNonBlankStr] at hid
  | bool b => simp [jsGet, isNonBlankStr] at hid
  | num q => simp [jsGet, isNonBlankStr] at hid
  | str s => simp [jsGet, isNonBlankStr] at hid
  | arr xs => simp [jsGet, isNonBlankStr] at hid

theorem validateProjectList_ok (ps : List JSVal) (i : Nat)
    (h : ∀ p ∈ ps, specValidProject p = true) :
    validateProjectList ps i = .ok () := by
  induction ps generalizing i with
  | nil => rfl
  | cons a rest ih =>
    simp only [validateProjectList,
      validateProject_of_specValid a i (h a (List.mem_cons_self a rest))]
    exact ih (i + 1) fun p hp => h p (List.mem_cons_of_mem a hp)

theorem validateConfig_of_specWellFormed (c : JSVal)
    (h : specWellFormedConfig c = true) : validateConfig c = .ok () := by
  cases c with
  | obj fields =>
    obtain ⟨hport, hprojs⟩ :
        specValidPort (jsGet (JSVal.obj fields) "port") = true ∧
        (match jsGet (JSVal.obj fields) "projects" with
         | .arr ps => ps.all specValidProject
         | _ => false) = true := by
      simpa [specWellFormedConfig, Bool.and_eq_true] using h
    cases hq : jsGet (JSVal.obj fields) "port" with
    | num q =>
      have hcond : q.den = 1 ∧ 0 ≤ q ∧ q ≤ 65535 := by
        rw [hq] at hport
        simpa [specValidPort, Bool.and_eq_true, decide_eq_true_eq, and_assoc] using hport
      cases hpj : jsGet (JSVal.obj fields) "projects" with
      | arr ps =>
        rw [hpj] at hprojs
        rw [validateConfig, hq]
        simp only [if_pos hcond, hpj]
        exact validateProjectList_ok ps 0 (by simpa [List.all_eq_true] using hprojs)
      | undefined => rw [hpj] at hprojs; simp at hprojs
      | null => rw [hpj] at hprojs; simp at hprojs
      | bool b => rw [hpj] at hprojs; simp at hprojs
      | num q2 => rw [hpj] at hprojs; simp at hprojs
      | str s => rw [hpj] at hprojs; simp at hprojs
      | obj o => rw [hpj] at hprojs; simp at hprojs
    | undefined => rw [hq] at hport; simp [specValidPort] at hport
    | null => rw [hq] at hport; simp [specValidPort] at hport
    | bool b => rw [hq] at hport; simp [specValidPort] at hport
    | str s => rw [hq] at hport; simp [specValidPort] at hport
    | arr xs => rw [hq] at hport; simp [specValidPort] at hport
    | obj o => rw [hq] at hport; simp [specValidPort] at hport
  | undefined => simp [specWellFormedConfig] at h
  | null => simp [specWellFormedConfig] at h
  | bool b => simp [specWellFormedConfig] at h
  | num q => simp [specWellFormedConfig] at h
  | str s => simp [specWellFormedConfig] at h
  | arr xs => simp [specWellFormedConfig] at h

/-- C5: `validateConfig` raises, for each malformed shape — a document
missing `port`, a non-number `port`, a non-integer or out-of-range port,
a non-array `projects`, a project entry missing a required field, or a
project entry with an empty or ill-typed value for one — a distinguishable
error whose (exactly stated) message names the offending field and, for
project-level errors, the entry's array index; and a well-formed document
(per the §4.5 schema) raises no error. -/
theorem validateConfig_characterization :
    (∀ fs : List (String × JSVal), isUndefined (jsGet (.obj fs) "port") = true →
       validateConfig (.obj fs) =
         .error "Configuration missing required field: \"port\"") ∧
    (∀ (fs : List (String × JSVal)) (v : JSVal), jsGet (.obj fs) "port" = v →
       isUndefined v = false → jsTypeof v ≠ "number" →
       validateConfig (.obj fs) =
         .error ("Invalid configuration: \"port\" must be a number, got " ++
                  jsTypeof v)) ∧
    (∀ (fs : List (String × JSVal)) (q : ℚ), jsGet (.obj fs) "port" = .num q →
       ¬(q.den = 1 ∧ 0 ≤ q ∧ q ≤ 65535) →
       validateConfig (.obj fs) =
         .error ("Invalid configuration: \"port\" must be a valid port number (0-65535), got " ++
                  ratToString q)) ∧
    (∀ (fs : List (String × JSVal)) (q : ℚ) (v : JSVal),
       jsGet (.obj fs) "port" = .num q → (q.den = 1 ∧ 0 ≤ q ∧ q ≤ 65535) →
       jsGet (.obj fs) "projects" = v → isJsArray v = false →
       validateConfig (.obj fs) =
         .error ("Invalid configuration: \"projects\" must be an array, got " ++
                  jsTypeof v)) ∧
    (∀ (fs : List (String × JSVal)) (q : ℚ) (pre : List JSVal) (p : JSVal)
       (post : List JSVal) (e : String),
       jsGet (.obj fs) "port" = .num q → (q.den = 1 ∧ 0 ≤ q ∧ q ≤ 65535) →
       jsGet (.obj fs) "projects" = .arr (pre ++ p :: post) →
       (∀ (j : Nat) (pj : JSVal), pre[j]? = some pj → validateProject pj j = .ok ()) →
       validateProject p pre.length = .error e →
       validateConfig (.obj fs) = .error e) ∧
    (∀ (p : JSVal) (i : Nat) (f : String), jsObjecty p = true →
       f ∈ requiredFields → isUndefined (jsGet p f) = true →
       ∃ g, g ∈ requiredFields ∧ isUndefined (jsGet p g) = true ∧
         validateProject p i = .error (projectFieldMissingMsg i g)) ∧
    (∀ (p : JSVal) (i : Nat), jsObjecty p = true → firstMissingField p = none →
       isNonBlankStr (jsGet p "id") = false →
       validateProject p i = .error (projectBlankFieldMsg i "id")) ∧
    (∀ (p : JSVal) (i : Nat), jsObjecty p = true → firstMissingField p = none →
       isNonBlankStr (jsGet p "id") = true →
       isNonBlankStr (jsGet p "name") = false →
       validateProject p i = .error (projectBlankFieldMsg i "name")) ∧
    (∀ (p : JSVal) (i : Nat), jsObjecty p = true → firstMissingField p = none →
       isNonBlankStr (jsGet p "id") = true →
       isNonBlankStr (jsGet p "name") = true →
       isNonBlankStr (jsGet p "dir") = false →
       validateProject p i = .error (projectBlankFieldMsg i "dir")) ∧
    (∀ (p : JSVal) (i : Nat), jsObjecty p = true → firstMissingField p = none →
       isNonBlankStr (jsGet p "id") = true →
       isNonBlankStr (jsGet p "name") = true →
       isNonBlankStr (jsGet p "dir") = true →
       isNonBlankStr (jsGet p "start") = false →
       validateProject p i = .error (projectBlankFieldMsg i "start")) ∧
    (∀ (p : JSVal) (i : Nat) (v : JSVal), jsObjecty p = true →
       firstMissingField p = none →
       isNonBlankStr (jsGet p "id") = true →
       isNonBlankStr (jsGet p "name") = true →
       isNonBlankStr (jsGet p "dir") = true →
       isNonBlankStr (jsGet p "start") = true →
       jsGet p "port" = v → (∀ q : ℚ, v ≠ .num q) →
       validateProject p i =
         .error ("Invalid configuration: project at index " ++ toString i ++
                  " \"port\" must be a number, got " ++ jsTypeof v)) ∧
    (∀ (p : JSVal) (i : Nat) (q : ℚ), jsObjecty p = true →
       firstMissingField p = none →
       isNonBlankStr (jsGet p "id") = true →
       isNonBlankStr (jsGet p "name") = true →
       isNonBlankStr (jsGet p "dir") = true →
       isNonBlankStr (jsGet p "start") = true →
       jsGet p "port" = .num q → ¬(q.den = 1 ∧ 0 ≤ q ∧ q ≤ 65535) →
       validateProject p i =
         .error ("Invalid configuration: project at index " ++ toString i ++
                  " \"port\" must be a valid port number (0-65535), got " ++
                  ratToString q)) ∧
    (∀ c : JSVal, specWellFormedConfig c = true → validateConfig c = .ok ()) := by
  refine ⟨?_, ?_, ?_, ?_, ?_, ?_, ?_, ?_, ?_, ?_, ?_, ?_,
    validateConfig_of_specWellFormed⟩
  · intro fs h
    cases hv : jsGet (.obj fs) "port" with
    | undefined => rw [validateConfig, hv]
    | null => rw [hv] at h; simp [isUndefined] at h
    | bool b => rw [hv] at h; simp [isUndefined] at h
    | num q => rw [hv] at h; simp [isUndefined] at h
    | str s => rw [hv] at h; simp [isUndefined] at h
    | arr xs => rw [hv] at h; simp [isUndefined] at h
    | obj o => rw [hv] at h; simp [isUndefined] at h
  · intro fs v hv hu htype
    rw [validateConfig, hv]
    cases v with
    | undefined => simp [isUndefined] at hu
    | num q => simp [jsTypeof] at htype
    | null => rfl
    | bool b => rfl
    | str s => rfl
    | arr xs => rfl
    | obj o => rfl
  · intro fs q hq hbad
    rw [validateConfig, hq]
    simp only [if_neg hbad]
  · intro fs q v hq hgood hv harr
    rw [validateConfig, hq]
    simp only [if_pos hgood, hv]
    cases v with
    | arr xs => simp [isJsArray] at harr
    | undefined => rfl
    | null => rfl
    | bool b => rfl
    | num q2 => rfl
    | str s => rfl
    | obj o => rfl
  · intro fs q pre p post e hq hgood hpj hok herr
    rw [validateConfig, hq]
    simp only [if_pos hgood, hpj]
    exact validateProjectList_append_error pre 0 p post e
      (fun j pj hj => by simpa using hok j pj hj)
      (by simpa using herr)
  · intro p i f hobj hf hu
    have hsome : (requiredFields.find? fun g => isUndefined (jsGet p g)).isSome := by
      rw [List.find?_isSome]
      exact ⟨f, hf, hu⟩
    obtain ⟨g, hg⟩ := Option.isSome_iff_exists.mp hsome
    have hpg : isUndefined (jsGet p g) = true := by
      have h5 := List.find?_some hg
      simpa using h5
    refine ⟨g, List.mem_of_find?_eq_some hg, hpg, ?_⟩
    rw [validateProject, if_neg (by simp [hobj])]
    have hfirst : firstMissingField p = some g := hg
    rw [hfirst]
  · intro p i hobj hmiss hblank
    rw [validateProject, if_neg (by simp [hobj]), hmiss, if_pos (by simp [hblank])]
  · intro p i hobj hmiss hid hblank
    rw [validateProject, if_neg (by simp [hobj]), hmiss, if_neg (by simp [hid]),
      if_pos (by simp [hblank])]
  · intro p i hobj hmiss hid hname hblank
    rw [validateProject, if_neg (by simp [hobj]), hmiss, if_neg (by simp [hid]),
      if_neg (by simp [hname]), if_pos (by simp [hblank])]
  · intro p i hobj hmiss hid hname hdir hblank
    rw [validateProject, if_neg (by simp [hobj]), hmiss, if_neg (by simp [hid]),
      if_neg (by simp [hname]), if_neg (by simp [hdir]), if_pos (by simp [hblank])]
  · intro p i v hobj hmiss hid hname hdir hstart hv hnotnum
    rw [validateProject, if_neg (by simp [hobj]), hmiss, if_neg (by simp [hid]),
      if_neg (by simp [hname]), if_neg (by simp [hdir]), if_neg (by simp [hstart]), hv]
    cases v with
    | num q => exact absurd rfl (hnotnum q)
    | undefined => rfl
    | null => rfl
    | bool b => rfl
    | str s => rfl
    | arr xs => rfl
    | obj o => rfl
  · intro p i q hobj hmiss hid hname hdir hstart hq hbad
    rw [validateProject, if_neg (by simp [hobj]), hmiss, if_neg (by simp [hid]),
      if_neg (by simp [hname]), if_neg (by simp [hdir]), if_neg (by simp [hstart]), hq]
    simp only [if_neg hbad]

/-- Witness for C5: each malformed shape at a concrete document, plus a
concrete well-formed document accepted.  `gp` below abbreviates the valid
entry `{id:"web", name:"Web", dir:"apps", start:"npm start", port:80}`,
written out inline. -/
theorem validateConfig_characterization_witness :
    (validateConfig (.obj []) =
       .error "Configuration missing required field: \"port\"") ∧
    (validateConfig (.obj [("port", .str "x")]) =
       .error ("Invalid configuration: \"port\" must be a number, got " ++
                jsTypeof (.str "x"))) ∧
    (validateConfig (.obj [("port", .num 70000)]) =
       .error ("Invalid configuration: \"port\" must be a valid port number (0-65535), got " ++
                ratToString 70000)) ∧
    (validateConfig (.obj [("port", .num 3000)]) =
       .error ("Invalid configuration: \"projects\" must be an array, got " ++
                jsTypeof .undefined)) ∧
    (validateConfig (.obj [("port", .num 3000),
        ("projects", .arr
          [.obj [("id", .str "web"), ("name", .str "Web"), ("dir", .str "apps"),
                 ("start", .str "npm start"), ("port", .num 80)],
           .obj [("id", .str "api")]])]) =
       .error (projectFieldMissingMsg 1 "name")) ∧
    (∃ g, g ∈ requiredFields ∧
       isUndefined (jsGet (.obj [("id", .str "api")]) g) = true ∧
       validateProject (.obj [("id", .str "api")]) 3 =
         .error (projectFieldMissingMsg 3 g)) ∧
    (validateProject (.obj [("id", .str "  "), ("name", .str "n"), ("dir", .str "d"),
        ("start", .str "s"), ("port", .num 80)]) 0 =
       .error (projectBlankFieldMsg 0 "id")) ∧
    (validateProject (.obj [("id", .str "a"), ("name", .str ""), ("dir", .str "d"),
        ("start", .str "s"), ("port", .num 80)]) 0 =
       .error (projectBlankFieldMsg 0 "name")) ∧
    (validateProject (.obj [("id", .str "a"), ("name", .str "n"), ("dir", .num 3),
        ("start", .str "s"), ("port", .num 80)]) 0 =
       .error (projectBlankFieldMsg 0 "dir")) ∧
    (validateProject (.obj [("id", .str "a"), ("name", .str "n"), ("dir", .str "d"),
        ("start", .str " "), ("port", .num 80)]) 0 =
       .error (projectBlankFieldMsg 0 "start")) ∧
    (validateProject (.obj [("id", .str "a"), ("name", .str "n"), ("dir", .str "d"),
        ("start", .str "s"), ("port", .str "80")]) 2 =
       .error ("Invalid configuration: project at index " ++ toString 2 ++
                " \"port\" must be a number, got " ++ jsTypeof (.str "80"))) ∧
    (validateProject (.obj [("id", .str "a"), ("name", .str "n"), ("dir", .str "d"),
        ("start", .str "s"), ("port", .num 99999)]) 2 =
       .error ("Invalid configuration: project at index " ++ toString 2 ++
                " \"port\" must be a valid port number (0-65535), got " ++
                ratToString 99999)) ∧
    (validateConfig (.obj [("port", .num 3000),
        ("projects", .arr
          [.obj [("id", .str "web"), ("name", .str "Web"), ("dir", .str "apps"),
                 ("start", .str "npm start"), ("port", .num 80)]])]) = .ok ()) := by
  refine ⟨?_, ?_, ?_, ?_, ?_, ?_, ?_, ?_, ?_, ?_, ?_, ?_, ?_⟩
  · exact validateConfig_characterization.1 [] rfl
  · exact validateConfig_characterization.2.1 [("port", .str "x")] (.str "x") rfl rfl
      (by decide)
  · exact validateConfig_characterization.2.2.1 [("port", .num 70000)] 70000 rfl
      (by decide)
  · exact validateConfig_characterization.2.2.2.1 [("port", .num 3000)] 3000 .undefined rfl
      (by refine ⟨rfl, by decide, by decide⟩) rfl rfl
  · exact validateConfig_characterization.2.2.2.2.1 _ 3000
      [.obj [("id", .str "web"), ("name", .str "Web"), ("dir", .str "apps"),
             ("start", .str "npm start"), ("port", .num 80)]]
      (.obj [("id", .str "api")]) [] (projectFieldMissingMsg 1 "name")
      rfl (by refine ⟨rfl, by decide, by decide⟩) rfl
      (by intro j pj hj
          cases j with
          | zero =>
            injection hj with hj
            subst hj
            rfl
          | succ n => simp at hj)
      rfl
  · exact validateConfig_characterization.2.2.2.2.2.1 (.obj [("id", .str "api")]) 3
      "name" rfl (by decide) rfl
  · exact validateConfig_characterization.2.2.2.2.2.2.1 _ 0 rfl rfl (by decide)
  · exact validateConfig_characterization.2.2.2.2.2.2.2.1 _ 0 rfl rfl (by decide)
      (by decide)
  · exact validateConfig_characterization.2.2.2.2.2.2.2.2.1 _ 0 rfl rfl (by decide)
      (by decide) (by decide)
  · exact validateConfig_characterization.2.2.2.2.2.2.2.2.2.1 _ 0 rfl rfl (by decide)
      (by decide) (by decide) (by decide)
  · exact validateConfig_characterization.2.2.2.2.2.2.2.2.2.2.1 _ 2 (.str "80") rfl rfl
      (by decide) (by decide) (by decide) (by decide) rfl
      (fun q h => JSVal.noConfusion h)
  · exact validateConfig_characterization.2.2.2.2.2.2.2.2.2.2.2.1 _ 2 99999 rfl rfl
      (by decide) (by decide) (by decide) (by decide) rfl (by decide)
  · exact validateConfig_characterization.2.2.2.2.2.2.2.2.2.2.2.2 _ (by decide)

end Dashboard
